import Mathlib

/-!
Verification of the LaTeX decoration engine of shg8/silverbullet.

The development shallowly embeds the two CodeMirror plugin variants found in
the repository:

* `src/web/cm_plugins/latex.ts` — widgets (`InlineLatexWidget`,
  `DisplayLatexWidget`), `createLatexDecorations`, and the drag tracker of
  `latexPlugin` with its 200 ms deferred `handleDragEnd` rebuild; and
* `src/unnamed/part_000` — the same widgets and `createLatexDecorations`,
  but a drag tracker with document-level mousedown/mouseup/touchstart/touchend
  listeners, a 50 ms non-cancelling rebuild timeout, and a `destroy` method.

Documents are `List Char`; document offsets are `Nat`.  The external syntax
tree is abstracted as the list of nodes (name plus `[from, to)` range) that
`syntaxTree(view.state).iterate` visits over the visible ranges, in document
order.  The external KaTeX call is abstracted as a function
`List Char → Except E K`, so that a thrown exception is an `Except.error`
result; the `try`/`catch` blocks of the widget `toDOM` methods become total
functions on that result.  Timers are modelled explicitly: a schedule pushes a
fresh identifier on a pending list, `clearTimeout` erases the stored
identifier, and a timer-fire event consumes a pending identifier and runs the
callback.
-/

/-- A selection range from `view.state.selection.ranges`; `selFrom`/`selTo`
are the range's `from`/`to` (`from` is a Lean keyword, hence the prefix).
An empty range (`selFrom = selTo`) is a pure cursor. -/
structure SelRange where
  selFrom : Nat
  selTo : Nat
deriving DecidableEq

/-- A syntax-tree node as seen by the `enter` callback of
`syntaxTree(view.state).iterate`: its type-tag `name` (the code compares it
against the strings `"InlineLatex"` and `"DisplayLatex"`) and its
`[nodeFrom, nodeTo)` offset range. -/
structure Node where
  name : String
  nodeFrom : Nat
  nodeTo : Nat
deriving DecidableEq

/-- The two widget classes of latex.ts: `InlineLatexWidget` and
`DisplayLatexWidget`. -/
inductive WidgetKind
  | inline
  | display
deriving DecidableEq

/-- A widget instance: the class (`kind`), the constructor's `formula`
argument, and the constructor's `pos` argument (the click-target offset
dispatched on activation).  The `client` constructor argument carries no
state relevant to the claims and is omitted. -/
structure Widget where
  kind : WidgetKind
  formula : List Char
  pos : Nat
deriving DecidableEq

/-- One replace decoration pushed by `createLatexDecorations`:
`deco.range(nodeFrom, nodeTo)` with its widget. -/
structure Deco where
  decoFrom : Nat
  decoTo : Nat
  widget : Widget
deriving DecidableEq

/-- `view.state.doc.sliceString(a, b)`: the characters at offsets
`a, a+1, …, b-1`, clamped to the document. -/
def sliceString (doc : List Char) (a b : Nat) : List Char :=
  (doc.drop a).take (b - a)

/-- The helper `isNodeInSelection` of `createLatexDecorations`: true when any
selection range overlaps the node half-openly
(`range.from < nodeTo && range.to > nodeFrom`). -/
def isNodeInSelection (sels : List SelRange) (nodeFrom nodeTo : Nat) : Bool :=
  sels.any fun r => decide (r.selFrom < nodeTo) && decide (r.selTo > nodeFrom)

/-- The lazy group of the JavaScript regex `/^\$\$(.*?)\$\$$/s`, scanning the
text after the leading `$$`: the shortest prefix `g` such that the remaining
input is exactly `$$` (without the `m` flag, the `$` anchor of an ECMAScript
regex matches only at the very end of the input; with the `s` flag the dot
also matches newlines). -/
def lazyScan : List Char → Option (List Char)
  | [] => none
  | c :: rest =>
      if c = '$' ∧ rest = ['$'] then some []
      else (lazyScan rest).map fun g => c :: g

/-- The full regex `/^\$\$(.*?)\$\$$/s.exec(text)`: `some group1` on a match,
`none` otherwise. -/
def execDisplayRegex (text : List Char) : Option (List Char) :=
  match text with
  | a :: b :: rest => if a = '$' ∧ b = '$' then lazyScan rest else none
  | _ => none

/-- The body of the `enter` callback of `createLatexDecorations` for one
node: the decoration pushed for it, if any.  Inline nodes strip one
delimiter from each end with no validation; display nodes must pass the
`$$…$$` regex; live nodes (cursor inside inclusively, or any selection
overlapping half-openly) are skipped. -/
def decorateNode (doc : List Char) (sels : List SelRange) (cursorPos : Nat)
    (n : Node) : Option Deco :=
  if n.name = "InlineLatex" then
    if !(decide (cursorPos ≥ n.nodeFrom) && decide (cursorPos ≤ n.nodeTo)) &&
        !(isNodeInSelection sels n.nodeFrom n.nodeTo) then
      some { decoFrom := n.nodeFrom, decoTo := n.nodeTo,
             widget := { kind := WidgetKind.inline,
                         formula := sliceString doc (n.nodeFrom + 1) (n.nodeTo - 1),
                         pos := n.nodeFrom + 1 } }
    else none
  else if n.name = "DisplayLatex" then
    if !(decide (cursorPos ≥ n.nodeFrom) && decide (cursorPos ≤ n.nodeTo)) &&
        !(isNodeInSelection sels n.nodeFrom n.nodeTo) then
      match execDisplayRegex (sliceString doc n.nodeFrom n.nodeTo) with
      | some formula =>
          some { decoFrom := n.nodeFrom, decoTo := n.nodeTo,
                 widget := { kind := WidgetKind.display, formula := formula,
                             pos := n.nodeFrom + 2 } }
      | none => none
    else none
  else none

/-- `createLatexDecorations`: the `widgets` list accumulated over the nodes
the tree iteration visits (in document order), with `cursorPos` the primary
cursor `view.state.selection.main.head` and `sels` the full
`view.state.selection.ranges` (which includes the primary range). -/
def createLatexDecorations (doc : List Char) (sels : List SelRange)
    (cursorPos : Nat) (nodes : List Node) : List Deco :=
  nodes.filterMap (decorateNode doc sels cursorPos)

/-- The `eq` methods of the two widget classes: `other.formula ===
this.formula`.  CodeMirror only ever compares widgets of the same class, and
widgets of different classes are never equal; both facts are folded into one
comparison function on the tagged representation. -/
def widgetEq (a b : Widget) : Bool :=
  match a.kind, b.kind with
  | WidgetKind.inline, WidgetKind.inline => a.formula == b.formula
  | WidgetKind.display, WidgetKind.display => a.formula == b.formula
  | _, _ => false

/-- Spec predicate (§4.2 of the spec, quoted by C1): a span is live when the
primary cursor offset lies in `[from, to]` inclusively, or some selection
range `[selFrom, selTo)` overlaps `[f, t)` half-openly. -/
def liveSpan (sels : List SelRange) (cursorPos f t : Nat) : Prop :=
  (f ≤ cursorPos ∧ cursorPos ≤ t) ∨ ∃ r ∈ sels, r.selFrom < t ∧ r.selTo > f

instance (sels : List SelRange) (cursorPos f t : Nat) :
    Decidable (liveSpan sels cursorPos f t) := by
  unfold liveSpan; infer_instance

/-- A node the Node Classifier accepts as a formula span: an `InlineLatex`
node (no validation), or a `DisplayLatex` node whose document slice passes
the `$$…$$` regex. -/
def classifies (doc : List Char) (n : Node) : Prop :=
  n.name = "InlineLatex" ∨
    (n.name = "DisplayLatex" ∧
      (execDisplayRegex (sliceString doc n.nodeFrom n.nodeTo)).isSome = true)

instance (doc : List Char) (n : Node) : Decidable (classifies doc n) := by
  unfold classifies; infer_instance

/-- The content a widget's `toDOM` leaves in its wrapper element: either the
output of a successful KaTeX call, or raw fallback text installed via
`textContent` (which discards any partial children). -/
inductive DomContent (K : Type)
  | rendered (out : K)
  | raw (text : List Char)
deriving DecidableEq

/-- The observable result of a widget's `toDOM`: the wrapper's final CSS
classes and its content. -/
structure DomResult (K : Type) where
  classes : List String
  content : DomContent K
deriving DecidableEq

/-- `InlineLatexWidget.toDOM`, with the external `katex.render` call
abstracted as `render : List Char → Except E K` (an exception thrown by the
call is an `Except.error`).  On success the wrapper keeps class
`sb-latex-inline` and holds the rendered output; on an exception the wrapper
text becomes `` `$${this.formula}$` `` and class `sb-latex-error` is added.
Being a total Lean function, no exception escapes. -/
def inlineToDOM {E K : Type} (render : List Char → Except E K)
    (formula : List Char) : DomResult K :=
  match render formula with
  | Except.ok out =>
      { classes := ["sb-latex-inline"], content := DomContent.rendered out }
  | Except.error _ =>
      { classes := ["sb-latex-inline", "sb-latex-error"],
        content := DomContent.raw ('$' :: (formula ++ ['$'])) }

/-- `DisplayLatexWidget.toDOM`: as `inlineToDOM` but in display mode, with
raw fallback `` `$$${this.formula}$$` `` (the separate `katexOutput` child is
only appended on success, so an exception discards the partial output). -/
def displayToDOM {E K : Type} (render : List Char → Except E K)
    (formula : List Char) : DomResult K :=
  match render formula with
  | Except.ok out =>
      { classes := ["sb-latex-display"], content := DomContent.rendered out }
  | Except.error _ =>
      { classes := ["sb-latex-display", "sb-latex-error"],
        content := DomContent.raw ('$' :: '$' :: (formula ++ ['$', '$'])) }

/-- A render function that always throws, standing for KaTeX choking on a
deliberately invalid formula. -/
def badRender : List Char → Except Unit Unit := fun _ => Except.error ()

/-!
Drag tracker of `src/web/cm_plugins/latex.ts` (`latexPlugin`).  Closure
state: `isDragging` and `dragEndTimeout` (the stored timer handle).  The
model additionally keeps the multiset of actually pending timers
(`pendingTimers`, fresh identifiers drawn from `nextTimerId`), the abstract
decoration set (`decorations`, the snapshot of the environment at the last
rebuild), and a rebuild counter.  `view.dispatch({})` issued by the timer
callback reaches `update` as a `ViewUpdate` with `docChanged`,
`viewportChanged` and `selectionSet` all false and an unchanged syntax tree.
-/

/-- Closure plus view-plugin state of the latex.ts variant. -/
structure LtxState where
  isDragging : Bool
  dragEndTimeout : Option Nat
  pendingTimers : List Nat
  nextTimerId : Nat
  decorations : Nat
  rebuildCount : Nat
deriving DecidableEq

/-- Events the latex.ts variant reacts to.  `editorUpdate` carries the
`ViewUpdate` flags (`docChanged`, `viewportChanged`, `selectionSet`, and
whether the syntax tree identity changed) and `env`, an abstract snapshot of
the document/selection a rebuild would be computed against. -/
inductive LtxEvent
  | mousedown
  | mousemove (buttons : Nat)
  | mouseup
  | mouseleave
  | timerFire (id : Nat)
  | editorUpdate (docChanged viewportChanged selectionSet treeChanged : Bool) (env : Nat)

/-- `handleDragEnd` of latex.ts: `clearTimeout` on the stored handle, then
schedule a fresh 200 ms timer and store its handle. -/
def ltxHandleDragEnd (s : LtxState) : LtxState :=
  let cleared :=
    match s.dragEndTimeout with
    | some id => s.pendingTimers.erase id
    | none => s.pendingTimers
  { s with pendingTimers := cleared ++ [s.nextTimerId],
           dragEndTimeout := some s.nextTimerId,
           nextTimerId := s.nextTimerId + 1 }

/-- The `update` method of the latex.ts plugin class: selection-only updates
are dropped while dragging; otherwise any of the four triggers rebuilds the
decorations against the update's environment. -/
def ltxUpdate (s : LtxState)
    (docChanged viewportChanged selectionSet treeChanged : Bool)
    (env : Nat) : LtxState :=
  if s.isDragging && selectionSet && !docChanged then s
  else if docChanged || viewportChanged || selectionSet || treeChanged then
    { s with decorations := env, rebuildCount := s.rebuildCount + 1 }
  else s

/-- One step of the latex.ts variant.  `mousedown` sets `isDragging = false`;
`mousemove` with a button pressed sets it; `mouseup`/`mouseleave` while
dragging run `handleDragEnd`; a firing timer runs the deferred callback
(clear `isDragging`, then `view.dispatch({})`, whose resulting update has
every trigger flag false). -/
def ltxStep (s : LtxState) : LtxEvent → LtxState
  | LtxEvent.mousedown => { s with isDragging := false }
  | LtxEvent.mousemove buttons =>
      if buttons ≠ 0 then { s with isDragging := true } else s
  | LtxEvent.mouseup => if s.isDragging then ltxHandleDragEnd s else s
  | LtxEvent.mouseleave => if s.isDragging then ltxHandleDragEnd s else s
  | LtxEvent.timerFire id =>
      if id ∈ s.pendingTimers then
        let s' := { s with pendingTimers := s.pendingTimers.erase id,
                           isDragging := false }
        ltxUpdate s' false false false false s'.decorations
      else s
  | LtxEvent.editorUpdate d v sel t env => ltxUpdate s d v sel t env

/-- Initial latex.ts state: not dragging, no timer, decorations built at
construction against environment 0. -/
def ltxInit : LtxState :=
  { isDragging := false, dragEndTimeout := none, pendingTimers := [],
    nextTimerId := 0, decorations := 0, rebuildCount := 0 }

/-- Run the latex.ts variant over an event trace. -/
def ltxRun (s : LtxState) (events : List LtxEvent) : LtxState :=
  events.foldl ltxStep s

/-!
Drag tracker of `src/unnamed/part_000`.  The constructor installs four
document-level listeners; `mouseup`/`touchend` while dragging schedule a
50 ms rebuild timeout without cancelling any earlier one; `destroy` runs the
stored cleanup, which removes the four listeners and nothing else; a firing
timeout rebuilds the decorations unconditionally, even after `destroy`.
-/

/-- The four document-level listeners installed by the part_000 constructor. -/
def p0Handlers : List String := ["mousedown", "mouseup", "touchstart", "touchend"]

/-- State of the part_000 variant: drag flag, currently registered
listeners, disposal flag, pending rebuild timeouts, abstract decorations,
rebuild counters (total, and those that ran after disposal). -/
structure P0State where
  isDragging : Bool
  listeners : List String
  destroyed : Bool
  pendingTimers : List Nat
  nextTimerId : Nat
  decorations : Nat
  rebuildCount : Nat
  rebuildsAfterDestroy : Nat
deriving DecidableEq

/-- Events of the part_000 variant.  `timerFire` carries the environment the
callback's `createLatexDecorations(view, client)` would observe. -/
inductive P0Event
  | mousedown
  | touchstart
  | mouseup
  | touchend
  | mouseleave
  | timerFire (id : Nat) (env : Nat)
  | editorUpdate (docChanged viewportChanged selectionSet treeChanged : Bool) (env : Nat)
  | destroy

/-- State right after the part_000 constructor: listeners installed,
decorations built against environment 0. -/
def p0Init : P0State :=
  { isDragging := false, listeners := p0Handlers, destroyed := false,
    pendingTimers := [], nextTimerId := 0, decorations := 0,
    rebuildCount := 0, rebuildsAfterDestroy := 0 }

/-- One step of the part_000 variant.  A document-level handler only runs
while its listener is registered.  There is no mouseleave handler.  A firing
timeout rebuilds even when the plugin was destroyed, because the callback
closes over the view and `destroy` does not clear it. -/
def p0Step (s : P0State) : P0Event → P0State
  | P0Event.mousedown =>
      if "mousedown" ∈ s.listeners then { s with isDragging := true } else s
  | P0Event.touchstart =>
      if "touchstart" ∈ s.listeners then { s with isDragging := true } else s
  | P0Event.mouseup =>
      if "mouseup" ∈ s.listeners ∧ s.isDragging then
        { s with isDragging := false,
                 pendingTimers := s.pendingTimers ++ [s.nextTimerId],
                 nextTimerId := s.nextTimerId + 1 }
      else s
  | P0Event.touchend =>
      if "touchend" ∈ s.listeners ∧ s.isDragging then
        { s with isDragging := false,
                 pendingTimers := s.pendingTimers ++ [s.nextTimerId],
                 nextTimerId := s.nextTimerId + 1 }
      else s
  | P0Event.mouseleave => s
  | P0Event.timerFire id env =>
      if id ∈ s.pendingTimers then
        { s with pendingTimers := s.pendingTimers.erase id,
                 decorations := env,
                 rebuildCount := s.rebuildCount + 1,
                 rebuildsAfterDestroy :=
                   s.rebuildsAfterDestroy + (if s.destroyed then 1 else 0) }
      else s
  | P0Event.editorUpdate d v sel t env =>
      if s.destroyed then s
      else if d || v || (sel && !s.isDragging) || t then
        { s with decorations := env, rebuildCount := s.rebuildCount + 1 }
      else s
  | P0Event.destroy =>
      { s with destroyed := true,
               listeners := s.listeners.filter fun l => !(p0Handlers.contains l) }

/-- Run the part_000 variant over an event trace. -/
def p0Run (s : P0State) (events : List P0Event) : P0State :=
  events.foldl p0Step s

/-- Characterisation of the lazy scan: it succeeds exactly on texts ending in
`$$`, returning everything before that final `$$`. -/
theorem lazyScan_eq_some_iff (s g : List Char) :
    lazyScan s = some g ↔ s = g ++ ['$', '$'] := by
  induction s generalizing g with
  | nil => simp [lazyScan]
  | cons c rest ih =>
    rw [lazyScan]
    split
    · rename_i hc
      obtain ⟨h1, h2⟩ := hc
      subst h1; subst h2
      constructor
      · intro h
        injection h with h
        subst h
        rfl
      · intro h
        have hlen := congrArg List.length h
        simp at hlen
        subst hlen
        rfl
    · rename_i hc
      cases g with
      | nil =>
        simp only [List.nil_append]
        constructor
        · intro h
          rcases Option.map_eq_some'.mp h with ⟨g', _, hg'⟩
          cases hg'
        · intro h
          exfalso
          apply hc
          injection h with h1 h2
          exact ⟨h1, h2⟩
      | cons a t =>
        constructor
        · intro h
          rcases Option.map_eq_some'.mp h with ⟨g', hg', heq⟩
          injection heq with heqa heqt
          subst heqa; subst heqt
          rw [ih] at hg'
          rw [hg']
          rfl
        · intro h
          injection h with h1 h2
          subst h1
          have : lazyScan rest = some t := (ih t).mpr h2
          rw [this]
          rfl

/-- Characterisation of the display regex: `/^\$\$(.*?)\$\$$/s` matches a
text exactly when it is `$$`, then the captured group (newlines allowed),
then `$$` at the very end. -/
theorem execDisplayRegex_eq_some_iff (t f : List Char) :
    execDisplayRegex t = some f ↔ t = '$' :: '$' :: (f ++ ['$', '$']) := by
  cases t with
  | nil => simp [execDisplayRegex]
  | cons a t1 =>
    cases t1 with
    | nil => simp [execDisplayRegex]
    | cons b rest =>
      show (if a = '$' ∧ b = '$' then lazyScan rest else none) = some f ↔ _
      split
      · rename_i hab
        obtain ⟨h1, h2⟩ := hab
        subst h1; subst h2
        rw [lazyScan_eq_some_iff]
        simp
      · rename_i hab
        simp only [List.cons.injEq]
        constructor
        · intro h
          exact Option.noConfusion h
        · rintro ⟨h1, h2, _⟩
          exact absurd ⟨h1, h2⟩ hab

/-- The boolean guard of `createLatexDecorations` (`!isCursorInside &&
!isInSelection`) holds exactly on non-live spans. -/
theorem notliveFlags_iff (sels : List SelRange) (c f t : Nat) :
    (!(decide (c ≥ f) && decide (c ≤ t)) && !(isNodeInSelection sels f t)) = true
      ↔ ¬ liveSpan sels c f t := by
  have hflags : ((decide (c ≥ f) && decide (c ≤ t)) || isNodeInSelection sels f t) = true
      ↔ liveSpan sels c f t := by
    simp [isNodeInSelection, liveSpan, List.any_eq_true, ge_iff_le, gt_iff_lt]
  rw [← hflags]
  cases (decide (c ≥ f) && decide (c ≤ t)) <;> cases isNodeInSelection sels f t <;> simp

/-- A classified node is skipped by `createLatexDecorations` exactly when it
is live. -/
theorem decorateNode_eq_none_iff (doc : List Char) (sels : List SelRange)
    (c : Nat) (n : Node) (h : classifies doc n) :
    decorateNode doc sels c n = none ↔ liveSpan sels c n.nodeFrom n.nodeTo := by
  rcases h with hname | ⟨hname, hsome⟩
  · unfold decorateNode
    rw [if_pos hname]
    by_cases hl : liveSpan sels c n.nodeFrom n.nodeTo
    · rw [if_neg]
      · simp [hl]
      · rw [notliveFlags_iff]
        exact not_not_intro hl
    · rw [if_pos ((notliveFlags_iff sels c n.nodeFrom n.nodeTo).mpr hl)]
      simp [hl]
  · have hni : ¬ (n.name = "InlineLatex") := by rw [hname]; decide
    unfold decorateNode
    rw [if_neg hni, if_pos hname]
    rcases Option.isSome_iff_exists.mp hsome with ⟨fml, hf⟩
    by_cases hl : liveSpan sels c n.nodeFrom n.nodeTo
    · rw [if_neg]
      · simp [hl]
      · rw [notliveFlags_iff]
        exact not_not_intro hl
    · rw [if_pos ((notliveFlags_iff sels c n.nodeFrom n.nodeTo).mpr hl)]
      rw [hf]
      simp [hl]

/-- Any decoration `decorateNode` emits covers exactly the node's range. -/
theorem decorateNode_range (doc : List Char) (sels : List SelRange)
    (c : Nat) (n : Node) (d : Deco) (h : decorateNode doc sels c n = some d) :
    d.decoFrom = n.nodeFrom ∧ d.decoTo = n.nodeTo := by
  unfold decorateNode at h
  split at h
  · split at h
    · injection h with h
      subst h
      exact ⟨rfl, rfl⟩
    · exact Option.noConfusion h
  · split at h
    · split at h
      · split at h
        · injection h with h
          subst h
          exact ⟨rfl, rfl⟩
        · exact Option.noConfusion h
      · exact Option.noConfusion h
    · exact Option.noConfusion h

/-- The slice of a range is never longer than the range. -/
theorem sliceString_length_le (doc : List Char) (a b : Nat) :
    (sliceString doc a b).length ≤ b - a := by
  unfold sliceString
  rw [List.length_take]
  exact min_le_left _ _

/-- C1: for every classified formula span `[from, to)`, the span is live —
and receives no decoration — if and only if the primary cursor offset
satisfies `from ≤ cursorPos ≤ to` (inclusive on both ends) or some selection
range `[selFrom, selTo)` satisfies `selFrom < to` and `selTo > from`; every
non-live classified span contributes exactly one replace decoration,
covering exactly the node's range, to the decoration list. -/
theorem c1_live_iff_undecorated (doc : List Char) (sels : List SelRange)
    (c : Nat) (n : Node) (l1 l2 : List Node) (h : classifies doc n) :
    (decorateNode doc sels c n = none ↔
      ((n.nodeFrom ≤ c ∧ c ≤ n.nodeTo) ∨
        ∃ r ∈ sels, r.selFrom < n.nodeTo ∧ r.selTo > n.nodeFrom)) ∧
    (∀ d, decorateNode doc sels c n = some d →
      d.decoFrom = n.nodeFrom ∧ d.decoTo = n.nodeTo) ∧
    createLatexDecorations doc sels c (l1 ++ n :: l2) =
      createLatexDecorations doc sels c l1 ++
        (decorateNode doc sels c n).toList ++
        createLatexDecorations doc sels c l2 := by
  refine ⟨decorateNode_eq_none_iff doc sels c n h,
    fun d hd => decorateNode_range doc sels c n d hd, ?_⟩
  unfold createLatexDecorations
  rw [List.filterMap_append]
  cases hd : decorateNode doc sels c n with
  | none => simp [List.filterMap_cons, hd]
  | some d => simp [List.filterMap_cons, hd]

/-- Witness for C1 at the document `a $x$ b` with an `InlineLatex` node
`[2, 5)`, cursor at 0 and the single (primary) empty selection range at 0. -/
theorem c1_witness :
    classifies "a $x$ b".toList ⟨"InlineLatex", 2, 5⟩ ∧
    (decorateNode "a $x$ b".toList [⟨0, 0⟩] 0 ⟨"InlineLatex", 2, 5⟩ = none ↔
      (((2 : Nat) ≤ 0 ∧ (0 : Nat) ≤ 5) ∨
        ∃ r ∈ ([⟨0, 0⟩] : List SelRange), r.selFrom < 5 ∧ r.selTo > 2)) :=
  ⟨by decide,
    (c1_live_iff_undecorated "a $x$ b".toList [⟨0, 0⟩] 0 ⟨"InlineLatex", 2, 5⟩
      [] [] (by decide)).1⟩

/-- C2: for every non-live `DisplayLatex` node, the full document slice
must match the `$$…$$` pattern — it matches exactly when the slice is two
delimiter characters, then anything including newlines, then two delimiter
characters at its very end; on a successful match the widget's formula is
exactly the text between the delimiters, and on a failed match the node is
rejected (no decoration), the classifier being a total function so that no
error is raised. -/
theorem c2_display_pattern (doc : List Char) (sels : List SelRange) (c : Nat)
    (n : Node) (hname : n.name = "DisplayLatex")
    (hlive : ¬ liveSpan sels c n.nodeFrom n.nodeTo) :
    (∀ f, execDisplayRegex (sliceString doc n.nodeFrom n.nodeTo) = some f ↔
        sliceString doc n.nodeFrom n.nodeTo = '$' :: '$' :: (f ++ ['$', '$'])) ∧
    (∀ f, execDisplayRegex (sliceString doc n.nodeFrom n.nodeTo) = some f →
        decorateNode doc sels c n =
          some { decoFrom := n.nodeFrom, decoTo := n.nodeTo,
                 widget := { kind := WidgetKind.display, formula := f,
                             pos := n.nodeFrom + 2 } }) ∧
    (execDisplayRegex (sliceString doc n.nodeFrom n.nodeTo) = none →
        decorateNode doc sels c n = none) := by
  have hni : ¬ (n.name = "InlineLatex") := by rw [hname]; decide
  have hguard := (notliveFlags_iff sels c n.nodeFrom n.nodeTo).mpr hlive
  refine ⟨fun f => execDisplayRegex_eq_some_iff _ f, ?_, ?_⟩
  · intro f hf
    unfold decorateNode
    rw [if_neg hni, if_pos hname, if_pos hguard, hf]
  · intro hf
    unfold decorateNode
    rw [if_neg hni, if_pos hname, if_pos hguard, hf]

/-- The display-math block of the spec scenario, `$$`, newline,
`\int_0^1 x\,dx`, newline, `$$`. -/
def blockDoc : List Char := "$$\n\\int_0^1 x\\,dx\n$$".toList

/-- The formula the scenario block must yield, newlines included. -/
def blockFormula : List Char := "\n\\int_0^1 x\\,dx\n".toList

/-- Witness for C2 at the scenario block: the regex matches, and the node is
decorated as a display widget whose formula keeps the newlines. -/
theorem c2_witness :
    (⟨"DisplayLatex", 0, 20⟩ : Node).name = "DisplayLatex" ∧
    ¬ liveSpan [⟨100, 100⟩] 100 0 20 ∧
    execDisplayRegex (sliceString blockDoc 0 20) = some blockFormula ∧
    decorateNode blockDoc [⟨100, 100⟩] 100 ⟨"DisplayLatex", 0, 20⟩ =
      some { decoFrom := 0, decoTo := 20,
             widget := { kind := WidgetKind.display, formula := blockFormula,
                         pos := 2 } } := by
  refine ⟨rfl, by decide, by decide, ?_⟩
  exact (c2_display_pattern blockDoc [⟨100, 100⟩] 100 ⟨"DisplayLatex", 0, 20⟩
    rfl (by decide)).2.1 blockFormula (by decide)

/-- C3: when the typesetting call throws (an `Except.error` result), both
widget variants discard the partial output, display the raw delimited text
(`$formula$` inline, `$$formula$$` display), and add the error indicator
class `sb-latex-error`; both `toDOM` embeddings are total functions, so no
exception escapes to the caller. -/
theorem c3_render_fallback {E K : Type} (render : List Char → Except E K)
    (formula : List Char) (e : E) (h : render formula = Except.error e) :
    inlineToDOM render formula =
      { classes := ["sb-latex-inline", "sb-latex-error"],
        content := DomContent.raw ('$' :: (formula ++ ['$'])) } ∧
    displayToDOM render formula =
      { classes := ["sb-latex-display", "sb-latex-error"],
        content := DomContent.raw ('$' :: '$' :: (formula ++ ['$', '$'])) } := by
  unfold inlineToDOM displayToDOM
  rw [h]
  exact ⟨rfl, rfl⟩

/-- Witness for C3: a render function that always throws, applied to the
deliberately invalid formula `e^{` (unmatched brace); the widgets show the
raw delimited text with the error marker. -/
theorem c3_witness :
    badRender "e^\x7b".toList = Except.error () ∧
    inlineToDOM badRender "e^\x7b".toList =
      { classes := ["sb-latex-inline", "sb-latex-error"],
        content := DomContent.raw "$e^\x7b$".toList } ∧
    displayToDOM badRender "e^\x7b".toList =
      { classes := ["sb-latex-display", "sb-latex-error"],
        content := DomContent.raw "$$e^\x7b$$".toList } := by
  refine ⟨rfl, ?_, ?_⟩
  · rw [(c3_render_fallback badRender "e^\x7b".toList () rfl).1]
    decide
  · rw [(c3_render_fallback badRender "e^\x7b".toList () rfl).2]
    decide

/-- The spec scenario document `Euler's identity: $e^{i\pi}+1=0$.`; its `$`
delimiters sit at offsets 18 and 31, so the `InlineLatex` node spans
`[18, 32)`. -/
def eulerDoc : List Char := "Euler\x27s identity: $e^\x7bi\\pi\x7d+1=0$.".toList

/-- The formula the scenario expects, `e^{i\pi}+1=0`. -/
def eulerFormula : List Char := "e^\x7bi\\pi\x7d+1=0".toList

/-- Counterexample to C5: on the scenario document with the cursor at
document start, an inline span `[19, 32)` is decorated with the formula
`sliceString (20, 31) = ^{i\pi}+1=0`, not the claimed `e^{i\pi}+1=0` — the
span whose widget carries the claimed formula is `[18, 32)`. -/
theorem c5_counterexample :
    createLatexDecorations eulerDoc [⟨0, 0⟩] 0 [⟨"InlineLatex", 19, 32⟩] =
      [{ decoFrom := 19, decoTo := 32,
         widget := { kind := WidgetKind.inline,
                     formula := "^\x7bi\\pi\x7d+1=0".toList, pos := 20 } }] ∧
    "^\x7bi\\pi\x7d+1=0".toList ≠ eulerFormula := by
  exact ⟨by decide, by decide⟩

/-- C5 as amended: every non-live `InlineLatex` node `[from, to)` is
decorated with a widget whose formula is the document slice
`(from+1, to-1)` — one delimiter character stripped from each end, with no
further validation — and in the scenario document with the cursor at
document start the inline span `[18, 32)` (not `[19, 32)`) is decorated
with a widget whose formula is `e^{i\pi}+1=0`. -/
theorem c5_inline_formula (doc : List Char) (sels : List SelRange) (c : Nat)
    (n : Node) (hname : n.name = "InlineLatex")
    (hlive : ¬ liveSpan sels c n.nodeFrom n.nodeTo) :
    decorateNode doc sels c n =
      some { decoFrom := n.nodeFrom, decoTo := n.nodeTo,
             widget := { kind := WidgetKind.inline,
                         formula := sliceString doc (n.nodeFrom + 1) (n.nodeTo - 1),
                         pos := n.nodeFrom + 1 } } ∧
    createLatexDecorations eulerDoc [⟨0, 0⟩] 0 [⟨"InlineLatex", 18, 32⟩] =
      [{ decoFrom := 18, decoTo := 32,
         widget := { kind := WidgetKind.inline, formula := eulerFormula,
                     pos := 19 } }] := by
  constructor
  · unfold decorateNode
    rw [if_pos hname,
      if_pos ((notliveFlags_iff sels c n.nodeFrom n.nodeTo).mpr hlive)]
  · decide

/-- Witness for C5 (amended) at the scenario span `[18, 32)`. -/
theorem c5_witness :
    (⟨"InlineLatex", 18, 32⟩ : Node).name = "InlineLatex" ∧
    ¬ liveSpan [⟨0, 0⟩] 0 18 32 ∧
    decorateNode eulerDoc [⟨0, 0⟩] 0 ⟨"InlineLatex", 18, 32⟩ =
      some { decoFrom := 18, decoTo := 32,
             widget := { kind := WidgetKind.inline, formula := eulerFormula,
                         pos := 19 } } := by
  refine ⟨rfl, by decide, ?_⟩
  rw [(c5_inline_formula eulerDoc [⟨0, 0⟩] 0 ⟨"InlineLatex", 18, 32⟩ rfl
    (by decide)).1]
  decide

/-- C6: two widgets of the same kind compare equal under the widget
equality function exactly when their formula strings are identical,
whatever their click-target offsets (and, the position living outside the
widget, whatever their span positions). -/
theorem c6_widget_eq (k : WidgetKind) (f f2 : List Char) (p p2 : Nat) :
    widgetEq ⟨k, f, p⟩ ⟨k, f2, p2⟩ = true ↔ f = f2 := by
  cases k <;> simp [widgetEq]

/-- C7: every decoration emitted for an inline span records click target
`from + 1` (just past the opening delimiter) and every decoration for a
display span records `from + 2` (past the two opening delimiters); reading
the recorded click target back together with the span bounds yields an
offset strictly inside the original span.  (For inline nodes, strictness
needs the FormulaSpan invariant that the raw span `$…$` holds both
delimiters, i.e. `from + 2 ≤ to`; for display nodes the successful regex
match already forces `from + 4 ≤ to`.) -/
theorem c7_click_target (doc : List Char) (sels : List SelRange) (c : Nat)
    (n : Node) (d : Deco) (h : decorateNode doc sels c n = some d)
    (hwide : n.nodeFrom + 2 ≤ n.nodeTo) :
    (d.widget.kind = WidgetKind.inline → d.widget.pos = d.decoFrom + 1) ∧
    (d.widget.kind = WidgetKind.display → d.widget.pos = d.decoFrom + 2) ∧
    (d.decoFrom < d.widget.pos ∧ d.widget.pos < d.decoTo) := by
  unfold decorateNode at h
  split at h
  · split at h
    · injection h with h
      subst h
      dsimp only
      refine ⟨fun _ => rfl, fun hk => absurd hk (by decide), Nat.lt_succ_self _, ?_⟩
      omega
    · exact Option.noConfusion h
  · split at h
    · split at h
      · split at h
        · rename_i fml hreg
          injection h with h
          subst h
          dsimp only
          have hchar := (execDisplayRegex_eq_some_iff _ fml).mp hreg
          have hlen : (sliceString doc n.nodeFrom n.nodeTo).length = fml.length + 4 := by
            rw [hchar]
            simp
          have hle := sliceString_length_le doc n.nodeFrom n.nodeTo
          refine ⟨fun hk => absurd hk (by decide), fun _ => rfl, ?_, ?_⟩ <;> omega
        · exact Option.noConfusion h
      · exact Option.noConfusion h
    · exact Option.noConfusion h

/-- Witness for C7 at the inline node `[2, 5)` of `a $x$ b` with cursor and
selection far away: the click target 3 lies strictly inside `[2, 5)`. -/
theorem c7_witness :
    decorateNode "a $x$ b".toList [⟨10, 10⟩] 10 ⟨"InlineLatex", 2, 5⟩ =
      some { decoFrom := 2, decoTo := 5,
             widget := { kind := WidgetKind.inline, formula := ['x'], pos := 3 } } ∧
    2 + 2 ≤ 5 ∧ ((2 : Nat) < 3 ∧ (3 : Nat) < 5) := by
  refine ⟨by decide, by decide, ?_⟩
  exact (c7_click_target "a $x$ b".toList [⟨10, 10⟩] 10 ⟨"InlineLatex", 2, 5⟩
    { decoFrom := 2, decoTo := 5,
      widget := { kind := WidgetKind.inline, formula := ['x'], pos := 3 } }
    (by decide) (by decide)).2.2

/-- C10: with the primary cursor outside `[from, to]` and every other
selection range non-overlapping, adding a secondary empty selection range
(a secondary cursor) at `p` leaves a classified span undecorated exactly
when `p` is strictly inside the span (`from < p < to`); a secondary cursor
placed exactly at `from` or at `to` leaves the span decorated, unlike the
primary cursor, whose boundary positions count as inside. -/
theorem c10_secondary_cursor (doc : List Char) (sels : List SelRange)
    (c p : Nat) (n : Node) (hclass : classifies doc n)
    (hc : ¬(n.nodeFrom ≤ c ∧ c ≤ n.nodeTo))
    (hothers : ∀ r ∈ sels, ¬(r.selFrom < n.nodeTo ∧ r.selTo > n.nodeFrom)) :
    (decorateNode doc (sels ++ [⟨p, p⟩]) c n = none ↔
      (n.nodeFrom < p ∧ p < n.nodeTo)) ∧
    ((p = n.nodeFrom ∨ p = n.nodeTo) →
      decorateNode doc (sels ++ [⟨p, p⟩]) c n ≠ none) := by
  have hiff := decorateNode_eq_none_iff doc (sels ++ [⟨p, p⟩]) c n hclass
  have hlive : liveSpan (sels ++ [⟨p, p⟩]) c n.nodeFrom n.nodeTo ↔
      (n.nodeFrom < p ∧ p < n.nodeTo) := by
    unfold liveSpan
    constructor
    · rintro (hcur | ⟨r, hr, hover⟩)
      · exact absurd hcur hc
      · rcases List.mem_append.mp hr with hmem | hmem
        · exact absurd hover (hothers r hmem)
        · rcases List.mem_singleton.mp hmem with rfl
          exact ⟨hover.2, hover.1⟩
    · rintro ⟨h1, h2⟩
      exact Or.inr ⟨⟨p, p⟩,
        List.mem_append.mpr (Or.inr (List.mem_singleton.mpr rfl)), h2, h1⟩
  constructor
  · rw [hiff, hlive]
  · intro hb
    rw [Ne, hiff, hlive]
    rintro ⟨hh1, hh2⟩
    rcases hb with rfl | rfl
    · exact absurd hh1 (lt_irrefl _)
    · exact absurd hh2 (lt_irrefl _)

/-- Witness for C10 at `a $x$ b`, inline node `[2, 5)`, primary cursor 0,
secondary cursor at the span boundary 2: the span stays decorated. -/
theorem c10_witness :
    classifies "a $x$ b".toList ⟨"InlineLatex", 2, 5⟩ ∧
    ¬((2 : Nat) ≤ 0 ∧ (0 : Nat) ≤ 5) ∧
    (∀ r ∈ ([⟨0, 0⟩] : List SelRange), ¬(r.selFrom < 5 ∧ r.selTo > 2)) ∧
    decorateNode "a $x$ b".toList ([⟨0, 0⟩] ++ [⟨2, 2⟩]) 0 ⟨"InlineLatex", 2, 5⟩
      ≠ none := by
  refine ⟨by decide, by decide, by decide, ?_⟩
  exact (c10_secondary_cursor "a $x$ b".toList [⟨0, 0⟩] 0 2 ⟨"InlineLatex", 2, 5⟩
    (by decide) (by decide) (by decide)).2 (Or.inl rfl)

/-- The event trace exercising the latex.ts drag handling: press, drag with
the button held, an intermediate selection-change update while dragging
(environment 7), release (schedules the deferred timer, id 0), and the
deferred delay elapsing. -/
def c4Trace : List LtxEvent :=
  [LtxEvent.mousedown, LtxEvent.mousemove 1,
   LtxEvent.editorUpdate false false true false 7,
   LtxEvent.mouseup, LtxEvent.timerFire 0]

/-- C4, evaluated at the failing trace: the intermediate selection change is
suppressed while dragging and scheduling cancels/replaces pending timers as
claimed, but once the deferred delay elapses the callback only sets
`isDragging = false` and issues `view.dispatch({})`, whose update has every
trigger flag false — so the final state shows `rebuildCount = 0` and
decorations still built against the pre-drag environment 0, where the claim
requires exactly one rebuild reflecting environment 7. -/
theorem c4_no_rebuild_after_drag :
    ltxRun ltxInit c4Trace =
      { isDragging := false, dragEndTimeout := some 0, pendingTimers := [],
        nextTimerId := 1, decorations := 0, rebuildCount := 0 } := by
  decide

/-- Counterexample to C8: in the latex.ts variant a `mousedown` from the
idle state leaves the tracker idle (the handler assigns `isDragging =
false`, dragging only starts on `mousemove` with a button held), refuting
"transitions from Idle to Dragging on every pointer-down"; and in the
part_000 variant a `mouseleave` while dragging leaves the tracker dragging
(no mouseleave handler exists), refuting the implicit-drag-end conjunct. -/
theorem c8_counterexample :
    (ltxStep ltxInit LtxEvent.mousedown).isDragging = false ∧
    (p0Step { p0Init with isDragging := true } P0Event.mouseleave).isDragging
      = true := by
  decide

/-- C8 as amended: in the part_000 variant the tracker enters Dragging on
every mousedown or touchstart while its listener is registered and returns
to Idle on every mouseup or touchend, but ignores mouseleave entirely; in
the latex.ts variant mousedown resets the tracker to Idle, Dragging is
entered on mousemove with a button pressed, and a mouseleave while Dragging
triggers the same deferred drag-end as mouseup — it schedules the timer
whose firing returns the tracker to Idle, so that tracker is not left stuck
in Dragging after the pointer exits the editor. -/
theorem c8_amended_transitions :
    (∀ s : P0State, "mousedown" ∈ s.listeners →
        (p0Step s P0Event.mousedown).isDragging = true) ∧
    (∀ s : P0State, "touchstart" ∈ s.listeners →
        (p0Step s P0Event.touchstart).isDragging = true) ∧
    (∀ s : P0State, "mouseup" ∈ s.listeners →
        (p0Step s P0Event.mouseup).isDragging = false) ∧
    (∀ s : P0State, "touchend" ∈ s.listeners →
        (p0Step s P0Event.touchend).isDragging = false) ∧
    (∀ s : P0State, p0Step s P0Event.mouseleave = s) ∧
    (∀ s : LtxState, (ltxStep s LtxEvent.mousedown).isDragging = false) ∧
    (∀ (s : LtxState) (b : Nat), b ≠ 0 →
        (ltxStep s (LtxEvent.mousemove b)).isDragging = true) ∧
    (∀ s : LtxState, s.isDragging = true →
        s.nextTimerId ∈ (ltxStep s LtxEvent.mouseleave).pendingTimers ∧
        (ltxStep (ltxStep s LtxEvent.mouseleave)
            (LtxEvent.timerFire s.nextTimerId)).isDragging = false) := by
  refine ⟨?_, ?_, ?_, ?_, fun s => rfl, fun s => rfl, ?_, ?_⟩
  · intro s h
    simp [p0Step, h]
  · intro s h
    simp [p0Step, h]
  · intro s h
    cases hd : s.isDragging <;> simp [p0Step, h, hd]
  · intro s h
    cases hd : s.isDragging <;> simp [p0Step, h, hd]
  · intro s b hb
    simp [ltxStep, hb]
  · intro s hs
    have hstep : ltxStep s LtxEvent.mouseleave = ltxHandleDragEnd s := by
      simp [ltxStep, hs]
    rw [hstep]
    have hmem : s.nextTimerId ∈ (ltxHandleDragEnd s).pendingTimers := by
      unfold ltxHandleDragEnd
      simp
    refine ⟨hmem, ?_⟩
    rw [show ltxStep (ltxHandleDragEnd s) (LtxEvent.timerFire s.nextTimerId) =
        ltxUpdate { ltxHandleDragEnd s with
            pendingTimers := (ltxHandleDragEnd s).pendingTimers.erase s.nextTimerId,
            isDragging := false } false false false false
          (ltxHandleDragEnd s).decorations from by simp [ltxStep, hmem]]
    unfold ltxUpdate
    simp

/-- Witness for C8 (amended): at the freshly constructed states, mousedown
drags the part_000 tracker, and in latex.ts a mouseleave while dragging
schedules timer 0 whose firing leaves the tracker idle. -/
theorem c8_witness :
    "mousedown" ∈ p0Init.listeners ∧
    (p0Step p0Init P0Event.mousedown).isDragging = true ∧
    ({ ltxInit with isDragging := true } : LtxState).isDragging = true ∧
    0 ∈ (ltxStep { ltxInit with isDragging := true } LtxEvent.mouseleave).pendingTimers ∧
    (ltxStep (ltxStep { ltxInit with isDragging := true } LtxEvent.mouseleave)
        (LtxEvent.timerFire 0)).isDragging = false := by
  refine ⟨by decide, c8_amended_transitions.1 p0Init (by decide), rfl, ?_, ?_⟩
  · exact (c8_amended_transitions.2.2.2.2.2.2.2
      { ltxInit with isDragging := true } rfl).1
  · exact (c8_amended_transitions.2.2.2.2.2.2.2
      { ltxInit with isDragging := true } rfl).2

/-- Counterexample to C9: after a drag (mousedown, mouseup) schedules the
50 ms rebuild timeout, disposing the part_000 controller leaves that timer
pending (`pendingTimers = [0]`, nothing is cleared), and when it fires it
performs a rebuild against the disposed view (`rebuildsAfterDestroy = 1`). -/
theorem c9_counterexample :
    (p0Run p0Init [P0Event.mousedown, P0Event.mouseup, P0Event.destroy]).destroyed
      = true ∧
    (p0Run p0Init [P0Event.mousedown, P0Event.mouseup, P0Event.destroy]).pendingTimers
      = [0] ∧
    (p0Run p0Init [P0Event.mousedown, P0Event.mouseup, P0Event.destroy,
        P0Event.timerFire 0 9]).rebuildsAfterDestroy = 1 := by
  decide

/-- C9 as amended: disposing the part_000 view controller deregisters every
pointer/touch listener it installed, but it does not clear a pending
deferred rebuild timer — the pending list is untouched, and a rebuild
scheduled before disposal still fires and runs against the disposed view. -/
theorem c9_destroy_behaviour :
    ∀ s : P0State, s.listeners = p0Handlers →
      ((p0Step s P0Event.destroy).destroyed = true ∧
       (p0Step s P0Event.destroy).listeners = [] ∧
       (p0Step s P0Event.destroy).pendingTimers = s.pendingTimers) ∧
      (∀ id env, id ∈ s.pendingTimers →
        (p0Step (p0Step s P0Event.destroy) (P0Event.timerFire id env)).rebuildsAfterDestroy
          = s.rebuildsAfterDestroy + 1) := by
  intro s hl
  constructor
  · refine ⟨rfl, ?_, rfl⟩
    show s.listeners.filter (fun l => !(p0Handlers.contains l)) = []
    rw [hl]
    decide
  · intro id env hid
    simp [p0Step, hid]

/-- Witness for C9 (amended): after mousedown and mouseup the controller
holds pending timer 0 and its four listeners; destroying and letting the
timer fire bumps the after-disposal rebuild count. -/
theorem c9_witness :
    (p0Run p0Init [P0Event.mousedown, P0Event.mouseup]).listeners = p0Handlers ∧
    0 ∈ (p0Run p0Init [P0Event.mousedown, P0Event.mouseup]).pendingTimers ∧
    (p0Step (p0Step (p0Run p0Init [P0Event.mousedown, P0Event.mouseup])
          P0Event.destroy) (P0Event.timerFire 0 9)).rebuildsAfterDestroy
      = (p0Run p0Init [P0Event.mousedown, P0Event.mouseup]).rebuildsAfterDestroy + 1 := by
  refine ⟨by decide, by decide, ?_⟩
  exact (c9_destroy_behaviour (p0Run p0Init [P0Event.mousedown, P0Event.mouseup])
    (by decide)).2 0 9 (by decide)
